import Mathlib

/-!
Verification of the modular fiber-panel cable-routing logic of the
`josh9730/netbox` script collection.

The development shallowly embeds the pieces of `scripts/common/utils.py` and
`scripts/jumpers.py` that the claims are about:

* the inventory data model (devices, front ports, rear ports) as read by the
  scripts through the ORM, modelled as explicit lists in a `Db` record whose
  list order is the repository's natural enumeration order;
* `CableRunner._find_free_local_ports`, `CableRunner._validate_free_ports`,
  `CableRunner.get_connections`, `CableRunner.create_cables` and
  `CableRunner.create_cable_single` from `scripts/common/utils.py`;
* the duplicate `_find_free_local_ports` of `scripts/jumpers.py` (which, unlike
  the `utils.py` copy, tests both racks' free-port lists);
* `next_cable_id` from `create_modular_trunk` (string sorting, suffix parsing
  and zero-padded rendering are embedded over `List Char`, matching Python's
  code-point-wise string order, `int()` and `str.rjust`);
* `check_pairs` from `NewJumper.run`.

Python exceptions are modelled with `Except`/`Option`: `AbortScript` messages
and the unhandled exceptions the claims distinguish are separate error
constructors.
-/

deriving instance DecidableEq for Except

namespace NetboxJumpers

/-! ## Data model

Records mirror the fields the scripts actually read.  Foreign keys are ids;
the ORM guarantees they resolve, so lookups that miss fall back to defaults
and the theorems that need well-formedness state it explicitly. -/

/-- A device; `isPanel` states that its role is the `modular-panels` role. -/
structure Device where
  id : Nat
  rack : Nat
  isPanel : Bool
deriving DecidableEq

/-- A panel front port as read by the scripts: owning device, the rear port it
maps to, its `rear_port_position`, its port `type` string and whether a cable
is attached. -/
structure FrontPort where
  id : Nat
  device : Nat
  rearPort : Nat
  rearPortPosition : Nat
  portType : List Char
  cabled : Bool
deriving DecidableEq

/-- A panel rear port; `linkPeer` is the rear port on the opposite end of its
backbone trunk (`link_peers[0]`), `none` when the rear port is uncabled. -/
structure RearPort where
  id : Nat
  device : Nat
  linkPeer : Option Nat
deriving DecidableEq

/-- The `Ports` type alias of the scripts: `FrontPort | Interface | RearPort`. -/
inductive Port where
  | front (fp : FrontPort)
  | iface (id : Nat) (device : Nat)
  | rear (rp : RearPort)
deriving DecidableEq

/-- Embeds `port.device` (as an id). -/
def Port.deviceId : Port → Nat
  | .front fp => fp.device
  | .iface _ dev => dev
  | .rear rp => rp.device

/-- The inventory state read by one script invocation.  List order is the
enumeration order of the underlying store. -/
structure Db where
  devices : List Device
  frontPorts : List FrontPort
  rearPorts : List RearPort
deriving DecidableEq

/-- Errors of a `CableRunner` run.  `noFreePorts` and `noValidPorts` are the
two `AbortScript` messages; `dataIntegrity` models an uncaught ORM `get`
failure (zero or several matching rows). -/
inductive RunErr where
  | noFreePorts
  | noValidPorts
  | dataIntegrity
deriving DecidableEq

/-- A created `Cable` record with the fields `create_cable_single` sets. -/
structure Cable where
  cableType : String
  aTermination : Port
  bTermination : Port
  status : String
  label : String
  length : Nat
  lengthUnit : String
deriving DecidableEq

/-! ## String utilities for `next_cable_id`

Python strings are embedded as `List Char`; comparison is code-point-wise. -/

/-- An ASCII decimal digit. -/
def isDigitCh (c : Char) : Bool := 48 ≤ c.toNat && c.toNat ≤ 57

/-- Value of an ASCII digit. -/
def digitVal (c : Char) : Nat := c.toNat - 48

/-- Decimal accumulation, the evaluation loop of Python's `int()`. -/
def parseVal (i : Nat) (s : List Char) : Nat :=
  s.foldl (fun n c => n * 10 + digitVal c) i

/-- Python `int()` on a digit string: `none` models the `ValueError` raised on
an empty or non-digit string. -/
def parseNat (s : List Char) : Option Nat :=
  if !s.isEmpty && s.all isDigitCh then some (parseVal 0 s) else none

/-- One decimal digit as a character. -/
def digitChar (d : Nat) : Char :=
  match d with
  | 0 => '0' | 1 => '1' | 2 => '2' | 3 => '3' | 4 => '4'
  | 5 => '5' | 6 => '6' | 7 => '7' | 8 => '8' | _ => '9'

/-- Digits of `n`, most significant first, prepended to `acc`; fuel makes the
recursion structural. -/
def natToCharsAux : Nat → Nat → List Char → List Char
  | 0, _, acc => acc
  | fuel + 1, n, acc =>
    if n < 10 then digitChar n :: acc
    else natToCharsAux fuel (n / 10) (digitChar (n % 10) :: acc)

/-- Python `str()` of a natural number. -/
def natToChars (n : Nat) : List Char := natToCharsAux (n + 1) n []

/-- Python `str.rjust(w, c)`. -/
def rjust (w : Nat) (c : Char) (s : List Char) : List Char :=
  List.replicate (w - s.length) c ++ s

/-- Python `s.split("--")`. -/
def splitDashDash : List Char → List (List Char)
  | [] => [[]]
  | '-' :: '-' :: rest => [] :: splitDashDash rest
  | c :: rest =>
    match splitDashDash rest with
    | [] => [[c]]
    | h :: t => (c :: h) :: t

/-- Python's string `<`: lexicographic by code point. -/
def lexLt : List Char → List Char → Bool
  | _, [] => false
  | [], _ :: _ => true
  | a :: s, b :: t =>
    if a.toNat < b.toNat then true
    else if b.toNat < a.toNat then false
    else lexLt s t

/-- Python `sorted(xs)[-1]`: the lexicographic maximum, `none` on the empty list
(where Python raises `IndexError`). -/
def lexMax : List (List Char) → Option (List Char)
  | [] => none
  | s :: rest => some (rest.foldl (fun m t => if lexLt m t then t else m) s)

/-- The `--`-suffixes of the existing trunk labels:
`[i.label.split("--")[-1] for i in cables]`. -/
def labelSuffixes (labels : List (List Char)) : List (List Char) :=
  labels.map (fun l => (splitDashDash l).getLastD [])

/-- Embeds `next_cable_id` from `create_modular_trunk` (`scripts/common/utils.py`,
also duplicated in `scripts/jumpers.py` and `scripts/devices.py`), applied to
the labels of the trunk-tagged cables.  `none` models the uncaught
`ValueError` of `int()` on a non-numeric suffix. -/
def nextCableId (labels : List (List Char)) : Option (List Char) :=
  match lexMax (labelSuffixes labels) with
  | none => some ('C' :: ['0', '0', '0', '1'])
  | some m =>
    match parseNat (m.drop 1) with
    | none => none
    | some n => some ('C' :: rjust 4 '0' (natToChars (n + 1)))

/-- A label suffix of the shape `C` followed by exactly four ASCII digits. -/
def isC4Label (s : List Char) : Bool :=
  s.length == 5 && s.headD ' ' == 'C' && (s.drop 1).all isDigitCh

/-- Numeric value of a label suffix (the characters after the leading `C`). -/
def suffixNum (s : List Char) : Nat := parseVal 0 (s.drop 1)

/-! ## CableRunner (`scripts/common/utils.py`) -/

/-- Looks up `device.rack` for a device id; the ORM guarantees the id resolves, so the
default is irrelevant on well-formed states. -/
def deviceRack (db : Db) (dev : Nat) : Nat :=
  match db.devices.find? (fun d => d.id == dev) with
  | some d => d.rack
  | none => 0

/-- Computes `port.device.rack` for a script endpoint. -/
def portRack (db : Db) (p : Port) : Nat :=
  deviceRack db p.deviceId

/-- Embeds `FrontPort.objects.filter(device__role=PANEL_ROLE, device__rack=rack,
cable=None)`, the per-rack query of `_find_free_local_ports`. -/
def freeModularPorts (db : Db) (rack : Nat) : List FrontPort :=
  db.frontPorts.filter fun p =>
    (match db.devices.find? (fun d => d.id == p.device) with
     | some d => d.isPanel && d.rack == rack
     | none => false)
    && !p.cabled

/-- Embeds `port.rear_port.link_peers[0].device`: the device at the far end of the
rear-port trunk, `none` when the rear port is uncabled (the caught exception
of `_validate_free_ports`). -/
def remotePanel (db : Db) (p : FrontPort) : Option Nat :=
  match db.rearPorts.find? (fun r => r.id == p.rearPort) with
  | none => none
  | some r =>
    match r.linkPeer with
    | none => none
    | some peer =>
      match db.rearPorts.find? (fun r2 => r2.id == peer) with
      | none => none
      | some r2 => some r2.device

/-- Embeds `FrontPort.objects.get(device=dev, rear_port_position=pos)`: `none` models
the uncaught exception when zero or several rows match. -/
def frontPortGet (db : Db) (dev pos : Nat) : Option FrontPort :=
  match db.frontPorts.filter (fun fp => fp.device == dev && fp.rearPortPosition == pos) with
  | [fp] => some fp
  | _ => none

/-- The accumulation loop of `_validate_free_ports`: skip ports whose rear
port is unconnected, skip ports whose remote front port is cabled, collect
the rest as `[port, remote_port]` pairs in input order. -/
def validList (db : Db) : List FrontPort → Except RunErr (List (FrontPort × FrontPort))
  | [] => .ok []
  | p :: rest =>
    match remotePanel db p with
    | none => validList db rest
    | some panel =>
      match frontPortGet db panel p.rearPortPosition with
      | none => .error .dataIntegrity
      | some rp =>
        if rp.cabled then validList db rest
        else
          match validList db rest with
          | .error e => .error e
          | .ok acc => .ok ((p, rp) :: acc)

/-- Embeds `_validate_free_ports`: the loop above followed by
`raise AbortScript("No valid modular ports found.")` on an empty result. -/
def validateFreePorts (db : Db) (ports : List FrontPort) :
    Except RunErr (List (FrontPort × FrontPort)) :=
  match validList db ports with
  | .ok [] => .error .noValidPorts
  | .ok vs => .ok vs
  | .error e => .error e

/-- Embeds `filter_ports_direct_connect`: the first valid pair whose remote front
port sits on a panel in `rack2`. -/
def directConnect (db : Db) (rack2 : Nat) (pairs : List (FrontPort × FrontPort)) :
    Option (FrontPort × FrontPort) :=
  (pairs.filter (fun pr => deviceRack db pr.2.device == rack2)).head?

/-- The origin-rack valid-pair list as a total function (empty on failure);
used only to state hypotheses about a run. -/
def resolvedPairs (db : Db) (rack : Nat) : List (FrontPort × FrontPort) :=
  match validList db (freeModularPorts db rack) with
  | .ok l => l
  | .error _ => []

/-- Two plan segments share no port. -/
def pairsDisjoint (x y : Port × Port) : Prop :=
  x.1 ≠ y.1 ∧ x.1 ≠ y.2 ∧ x.2 ≠ y.1 ∧ x.2 ≠ y.2

/-- Embeds `CableRunner.get_connections` of `scripts/common/utils.py`.  Note the
source's free-port check (`utils.py` line 117) tests the rack-1 list twice:
`all((self.rack_1_free_modular_ports, self.rack_1_free_modular_ports))`; the
duplicated test is kept as written. -/
def getConnections (db : Db) (o d : Port) : Except RunErr (List (Port × Port)) :=
  if (freeModularPorts db (portRack db o)).isEmpty
      || (freeModularPorts db (portRack db o)).isEmpty then
    .error .noFreePorts
  else
    match validateFreePorts db (freeModularPorts db (portRack db o)) with
    | .error e => .error e
    | .ok pairs1 =>
      match directConnect db (portRack db d) pairs1 with
      | some dp => .ok [(o, .front dp.1), (d, .front dp.2)]
      | none =>
        match validateFreePorts db (freeModularPorts db (portRack db d)) with
        | .error e => .error e
        | .ok pairs2 =>
          match pairs1, pairs2 with
          | p1 :: _, p2 :: _ =>
            .ok [(o, .front p1.1), (.front p1.2, .front p2.2), (d, .front p2.1)]
          | _, _ => .error .dataIntegrity

/-- Embeds `CableRunner.create_cable_single`: build one `Cable` record. -/
def createCableSingle (p1 p2 : Port) (clr status cableType : String) (length : Nat) : Cable :=
  { cableType := cableType
    aTermination := p1
    bTermination := p2
    status := status
    label := clr
    length := length
    lengthUnit := "m" }

/-- Embeds `CableRunner.create_cables`: one cable per connection, in plan order,
all sharing the `self.data` attributes (`clr`, `status`, `cable_type`) and
the default length `0`. -/
def createCables (conns : List (Port × Port)) (clr status cableType : String) : List Cable :=
  conns.map fun c => createCableSingle c.1 c.2 clr status cableType 0

/-- An inter-rack `NewJumper` run: `get_connections` then `create_cables`. -/
def runCableRunner (db : Db) (o d : Port) (clr status cableType : String) :
    Except RunErr (List Cable) :=
  match getConnections db o d with
  | .error e => .error e
  | .ok plan => .ok (createCables plan clr status cableType)

/-! ## The `scripts/jumpers.py` duplicate of `_find_free_local_ports` -/

/-- Tests that `pat` is a prefix of `s`. -/
def startsWith : List Char → List Char → Bool
  | _, [] => true
  | [], _ :: _ => false
  | a :: s, b :: t => a == b && startsWith s t

/-- Substring test. -/
def containsSub : List Char → List Char → Bool
  | [], pat => pat.isEmpty
  | hay@(_ :: rest), pat => startsWith hay pat || containsSub rest pat

/-- Django's `icontains`: case-insensitive substring test. -/
def icontains (s pat : List Char) : Bool :=
  containsSub (s.map Char.toLower) (pat.map Char.toLower)

/-- The per-rack free-port query of `jumpers.py` `_find_free_local_ports`,
which adds `type__icontains="lc"` to the filter. -/
def freeModularPortsLC (db : Db) (rack : Nat) : List FrontPort :=
  db.frontPorts.filter fun p =>
    (match db.devices.find? (fun d => d.id == p.device) with
     | some d => d.isPanel && d.rack == rack
     | none => false)
    && icontains p.portType ['l', 'c']
    && !p.cabled

/-- Embeds the `jumpers.py` copy of `_find_free_local_ports` (lines 155-165): unlike the
`utils.py` copy it tests `rack_1` and `rack_2`'s lists. -/
def findFreeLocalPortsJumpers (db : Db) (rack1 rack2 : Nat) :
    Except RunErr (List FrontPort × List FrontPort) :=
  if (freeModularPortsLC db rack1).isEmpty || (freeModularPortsLC db rack2).isEmpty then
    .error .noFreePorts
  else
    .ok (freeModularPortsLC db rack1, freeModularPortsLC db rack2)

/-! ## `check_pairs` from `NewJumper.run` -/

/-- Outcomes of `check_pairs`: the `AbortScript("Select **one** ...")` message
versus the unhandled `IndexError` of `ports_input[0]`. -/
inductive FormErr where
  | abortSelectOne
  | indexErr
deriving DecidableEq

/-- Embeds `check_pairs(port_1, port_2, port_3, side)`: keep the selected (truthy)
fields, abort when more than one is selected, otherwise return
`ports_input[0]` — which raises `IndexError` when nothing was selected. -/
def checkPairs (port1 port2 port3 : Option Nat) : Except FormErr Nat :=
  if ([port1, port2, port3].filterMap id).length > 1 then .error .abortSelectOne
  else
    match [port1, port2, port3].filterMap id with
    | p :: _ => .ok p
    | [] => .error .indexErr

/-! ## Concrete inventory states used in witnesses and counterexamples -/

/-- Direct (SPK-SPK) plant: panel 1 in rack 1 trunked to panel 2 in rack 2,
one free front port on each side at position 1. -/
def fpA : FrontPort := ⟨10, 1, 100, 1, ['l', 'c'], false⟩

/-- Remote front port of `fpA`, on the rack-2 panel. -/
def fpB : FrontPort := ⟨20, 2, 200, 1, ['l', 'c'], false⟩

/-- Direct-topology state. -/
def dbDirect : Db :=
  { devices := [⟨1, 1, true⟩, ⟨2, 2, true⟩, ⟨3, 1, false⟩, ⟨4, 2, false⟩]
    frontPorts := [fpA, fpB]
    rearPorts := [⟨100, 1, some 200⟩, ⟨200, 2, some 100⟩] }

/-- Origin endpoint: an interface on device 3 in rack 1. -/
def oEnd : Port := .iface 30 3

/-- Destination endpoint: an interface on device 4 in rack 2. -/
def dEnd : Port := .iface 40 4

/-- Hub-mediated (SPK-HUB-SPK) plant: rack-1 panel 1 trunked to hub panel 5,
rack-2 panel 2 trunked to hub panel 6; hub rack is 3. -/
def fpH1 : FrontPort := ⟨10, 1, 100, 1, ['l', 'c'], false⟩

/-- Rack-2 local front port of the hub plant. -/
def fpH2 : FrontPort := ⟨20, 2, 200, 1, ['l', 'c'], false⟩

/-- Hub-side counterpart of `fpH1` (panel 5). -/
def fpH1r : FrontPort := ⟨50, 5, 500, 1, ['l', 'c'], false⟩

/-- Hub-side counterpart of `fpH2` (panel 6). -/
def fpH2r : FrontPort := ⟨60, 6, 600, 1, ['l', 'c'], false⟩

/-- Hub-topology state. -/
def dbHub : Db :=
  { devices := [⟨1, 1, true⟩, ⟨2, 2, true⟩, ⟨3, 1, false⟩, ⟨4, 2, false⟩,
                ⟨5, 3, true⟩, ⟨6, 3, true⟩]
    frontPorts := [fpH1, fpH2, fpH1r, fpH2r]
    rearPorts := [⟨100, 1, some 500⟩, ⟨200, 2, some 600⟩,
                  ⟨500, 5, some 100⟩, ⟨600, 6, some 200⟩] }

/-- State where rack 1 has a free (but unconnected) panel port while rack 2
has no free panel port at all. -/
def dbNoFree : Db :=
  { devices := [⟨1, 1, true⟩, ⟨3, 1, false⟩, ⟨4, 2, false⟩]
    frontPorts := [⟨10, 1, 100, 1, ['l', 'c'], false⟩]
    rearPorts := [⟨100, 1, none⟩] }

/-- Same-rack plant: both panels and both endpoints sit in rack 1, the two
panels trunked to each other; calling the resolver with the same endpoint on
both sides yields a plan whose consecutive pairs share that endpoint. -/
def dbSameRack : Db :=
  { devices := [⟨1, 1, true⟩, ⟨2, 1, true⟩, ⟨3, 1, false⟩]
    frontPorts := [fpA, fpB]
    rearPorts := [⟨100, 1, some 200⟩, ⟨200, 2, some 100⟩] }

/-- Plant whose rack-1 panel trunk loops back into the same panel (rear port
100 cabled to rear port 101 of panel 1), so the origin rack's valid pair is
`(fpA, fpA)`; rack 2 is trunked normally to the hub panel 6. -/
def dbLoop1 : Db :=
  { devices := [⟨1, 1, true⟩, ⟨2, 2, true⟩, ⟨3, 1, false⟩, ⟨4, 2, false⟩, ⟨6, 3, true⟩]
    frontPorts := [fpA, fpB, fpH2r]
    rearPorts := [⟨100, 1, some 101⟩, ⟨101, 1, some 100⟩,
                  ⟨200, 2, some 600⟩, ⟨600, 6, some 200⟩] }

/-- Plant whose rack-2 panel is trunked back to rack 1's panel (rear 200 to
rear 101 of panel 1) while rack 1's panel is trunked to the hub, so the
destination rack's valid pair resolves to rack 1's front port `fpA`. -/
def dbBack : Db :=
  { devices := [⟨1, 1, true⟩, ⟨2, 2, true⟩, ⟨3, 1, false⟩, ⟨4, 2, false⟩, ⟨5, 3, true⟩]
    frontPorts := [fpA, fpB, fpH1r]
    rearPorts := [⟨100, 1, some 500⟩, ⟨500, 5, some 100⟩,
                  ⟨200, 2, some 101⟩, ⟨101, 1, some 200⟩] }

/-- Plant whose rack-2 panel trunk loops back into the same panel (rear 200
cabled to rear 201 of panel 2), so the destination rack's valid pair is
`(fpB, fpB)`; rack 1 is trunked normally to the hub panel 5. -/
def dbLoop2 : Db :=
  { devices := [⟨1, 1, true⟩, ⟨2, 2, true⟩, ⟨3, 1, false⟩, ⟨4, 2, false⟩, ⟨5, 3, true⟩]
    frontPorts := [fpA, fpB, fpH1r]
    rearPorts := [⟨100, 1, some 500⟩, ⟨500, 5, some 100⟩,
                  ⟨200, 2, some 201⟩, ⟨201, 2, some 200⟩] }

/-- Variant of the direct plant in which the remote front port is occupied. -/
def fpBbusy : FrontPort := ⟨20, 2, 200, 1, ['l', 'c'], true⟩

/-- Direct plant with the rack-2 front port in use. -/
def dbBusy : Db :=
  { devices := [⟨1, 1, true⟩, ⟨2, 2, true⟩, ⟨3, 1, false⟩, ⟨4, 2, false⟩]
    frontPorts := [fpA, fpBbusy]
    rearPorts := [⟨100, 1, some 200⟩, ⟨200, 2, some 100⟩] }

/-! ## Order theory of Python's string comparison -/

theorem char_eq_of_toNat_eq {a b : Char} (h : a.toNat = b.toNat) : a = b :=
  Char.ext (UInt32.ext h)

theorem lexLt_irrefl (s : List Char) : lexLt s s = false := by
  induction s with
  | nil => rfl
  | cons a t ih => simp [lexLt, ih]

theorem lexLt_trans {a b c : List Char} (h1 : lexLt a b = true) (h2 : lexLt b c = true) :
    lexLt a c = true := by
  induction a generalizing b c with
  | nil =>
    cases c with
    | nil =>
      cases b with
      | nil => simp [lexLt] at h1
      | cons b0 bs => simp [lexLt] at h2
    | cons c0 cs => simp [lexLt]
  | cons a0 as ih =>
    cases b with
    | nil => simp [lexLt] at h1
    | cons b0 bs =>
      cases c with
      | nil => simp [lexLt] at h2
      | cons c0 cs =>
        simp only [lexLt] at h1 h2 ⊢
        by_cases hab : a0.toNat < b0.toNat <;> by_cases hbc : b0.toNat < c0.toNat
        · simp [show a0.toNat < c0.toNat from Nat.lt_trans hab hbc]
        · simp only [if_neg hbc] at h2
          by_cases hcb : c0.toNat < b0.toNat
          · simp [hcb] at h2
          · have hbceq : b0.toNat = c0.toNat := Nat.le_antisymm (Nat.le_of_not_lt hcb) (Nat.le_of_not_lt hbc)
            simp [show a0.toNat < c0.toNat from hbceq ▸ hab]
        · simp only [if_neg hab] at h1
          by_cases hba : b0.toNat < a0.toNat
          · simp [hba] at h1
          · have habeq : a0.toNat = b0.toNat := Nat.le_antisymm (Nat.le_of_not_lt hba) (Nat.le_of_not_lt hab)
            simp [show a0.toNat < c0.toNat from habeq ▸ hbc]
        · simp only [if_neg hab] at h1
          simp only [if_neg hbc] at h2
          by_cases hba : b0.toNat < a0.toNat
          · simp [hba] at h1
          · by_cases hcb : c0.toNat < b0.toNat
            · simp [hcb] at h2
            · have habeq : a0.toNat = b0.toNat :=
                Nat.le_antisymm (Nat.le_of_not_lt hba) (Nat.le_of_not_lt hab)
              have hbceq : b0.toNat = c0.toNat :=
                Nat.le_antisymm (Nat.le_of_not_lt hcb) (Nat.le_of_not_lt hbc)
              simp only [if_neg hba, if_neg hcb] at h1 h2
              have hac : ¬ a0.toNat < c0.toNat := by omega
              have hca : ¬ c0.toNat < a0.toNat := by omega
              simp only [if_neg hac, if_neg hca]
              exact ih h1 h2

theorem lexLt_trichot (a b : List Char) :
    lexLt a b = true ∨ lexLt b a = true ∨ a = b := by
  induction a generalizing b with
  | nil =>
    cases b with
    | nil => exact Or.inr (Or.inr rfl)
    | cons b0 bs => exact Or.inl (by simp [lexLt])
  | cons a0 as ih =>
    cases b with
    | nil => exact Or.inr (Or.inl (by simp [lexLt]))
    | cons b0 bs =>
      rcases Nat.lt_trichotomy a0.toNat b0.toNat with h | h | h
      · exact Or.inl (by simp [lexLt, h])
      · have ha : a0 = b0 := char_eq_of_toNat_eq h
        subst ha
        rcases ih bs with h' | h' | h'
        · exact Or.inl (by simp [lexLt, h'])
        · exact Or.inr (Or.inl (by simp [lexLt, h']))
        · exact Or.inr (Or.inr (by rw [h']))
      · exact Or.inr (Or.inl (by simp [lexLt, h]))

theorem lexLt_antisymm {a b : List Char} (h1 : lexLt a b = false) (h2 : lexLt b a = false) :
    a = b := by
  rcases lexLt_trichot a b with h | h | h
  · rw [h] at h1; cases h1
  · rw [h] at h2; cases h2
  · exact h

/-- Transitivity of the complement order (`¬ x < y` and `¬ y < z` give
`¬ x < z`). -/
theorem lexLt_notLt_trans {x y z : List Char} (h1 : lexLt x y = false)
    (h2 : lexLt y z = false) : lexLt x z = false := by
  by_contra h
  have hx : lexLt x z = true := by
    cases hxz : lexLt x z with
    | false => exact absurd hxz h
    | true => rfl
  rcases lexLt_trichot x y with hxy | hyx | rfl
  · rw [hxy] at h1; cases h1
  · have : lexLt y z = true := lexLt_trans hyx hx
    rw [this] at h2; cases h2
  · rw [hx] at h2; cases h2

theorem foldMax_spec (rest : List (List Char)) (m : List Char) :
    (rest.foldl (fun x t => if lexLt x t then t else x) m = m
      ∨ rest.foldl (fun x t => if lexLt x t then t else x) m ∈ rest)
    ∧ lexLt (rest.foldl (fun x t => if lexLt x t then t else x) m) m = false
    ∧ ∀ s ∈ rest, lexLt (rest.foldl (fun x t => if lexLt x t then t else x) m) s = false := by
  induction rest generalizing m with
  | nil => exact ⟨Or.inl rfl, lexLt_irrefl m, by simp⟩
  | cons t rest ih =>
    simp only [List.foldl_cons]
    by_cases hmt : lexLt m t
    · rw [if_pos hmt]
      obtain ⟨hmem, hle, hall⟩ := ih t
      refine ⟨?_, ?_, ?_⟩
      · rcases hmem with h | h
        · exact Or.inr (by rw [h]; exact List.mem_cons_self t rest)
        · exact Or.inr (List.mem_cons_of_mem t h)
      · by_contra hcon
        have h1 : lexLt (rest.foldl (fun x t => if lexLt x t then t else x) t) m = true := by
          cases hc : lexLt (rest.foldl (fun x t => if lexLt x t then t else x) t) m with
          | false => exact absurd hc hcon
          | true => rfl
        have h2 : lexLt (rest.foldl (fun x t => if lexLt x t then t else x) t) t = true :=
          lexLt_trans h1 hmt
        rw [h2] at hle; cases hle
      · intro s hs
        rcases List.mem_cons.mp hs with rfl | hs'
        · exact hle
        · exact hall s hs'
    · rw [if_neg hmt]
      obtain ⟨hmem, hle, hall⟩ := ih m
      have hmtf : lexLt m t = false := by
        cases hc : lexLt m t with
        | false => rfl
        | true => exact absurd hc hmt
      refine ⟨?_, hle, ?_⟩
      · rcases hmem with h | h
        · exact Or.inl h
        · exact Or.inr (List.mem_cons_of_mem t h)
      · intro s hs
        rcases List.mem_cons.mp hs with rfl | hs'
        · exact lexLt_notLt_trans hle hmtf
        · exact hall s hs'

theorem lexMax_spec {L : List (List Char)} {M : List Char} (h : lexMax L = some M) :
    M ∈ L ∧ ∀ s ∈ L, lexLt M s = false := by
  cases L with
  | nil => cases h
  | cons s rest =>
    simp only [lexMax, Option.some.injEq] at h
    obtain ⟨hmem, hle, hall⟩ := foldMax_spec rest s
    rw [h] at hmem hle hall
    constructor
    · rcases hmem with h' | h'
      · exact h' ▸ List.mem_cons_self s rest
      · exact List.mem_cons_of_mem s h'
    · intro x hx
      rcases List.mem_cons.mp hx with rfl | hx'
      · exact hle
      · exact hall x hx'

/-! ## Decimal parsing and rendering lemmas -/

theorem parseVal_append (i : Nat) (xs ys : List Char) :
    parseVal i (xs ++ ys) = parseVal (parseVal i xs) ys :=
  List.foldl_append _ _ _ _

theorem parseVal_shift (i : Nat) (s : List Char) :
    parseVal i s = i * 10 ^ s.length + parseVal 0 s := by
  induction s generalizing i with
  | nil => simp [parseVal]
  | cons c s ih =>
    have h1 : parseVal i (c :: s) = parseVal (i * 10 + digitVal c) s := rfl
    have h2 : parseVal 0 (c :: s) = parseVal (digitVal c) s := by
      simp [parseVal]
    rw [h1, h2, ih (i * 10 + digitVal c), ih (digitVal c)]
    simp only [List.length_cons, pow_succ]
    ring

theorem parseVal_lt (s : List Char) (hs : s.all isDigitCh = true) :
    parseVal 0 s < 10 ^ s.length := by
  induction s with
  | nil => simp [parseVal]
  | cons c s ih =>
    simp only [List.all_cons, Bool.and_eq_true] at hs
    obtain ⟨hc, hs'⟩ := hs
    have hd : digitVal c ≤ 9 := by
      simp only [isDigitCh, Bool.and_eq_true, decide_eq_true_eq] at hc
      simp only [digitVal]
      omega
    have h1 : parseVal 0 (c :: s) = digitVal c * 10 ^ s.length + parseVal 0 s := by
      have : parseVal 0 (c :: s) = parseVal (digitVal c) s := by simp [parseVal]
      rw [this, parseVal_shift]
    rw [h1]
    have h2 : digitVal c * 10 ^ s.length ≤ 9 * 10 ^ s.length :=
      Nat.mul_le_mul_right _ hd
    have h3 := ih hs'
    calc digitVal c * 10 ^ s.length + parseVal 0 s
        < digitVal c * 10 ^ s.length + 10 ^ s.length := by omega
      _ ≤ 9 * 10 ^ s.length + 10 ^ s.length := by omega
      _ = 10 ^ (s.length + 1) := by ring
      _ = 10 ^ (c :: s).length := by simp

theorem parseVal_lt_of_lexLt {s t : List Char} (hlen : s.length = t.length)
    (hs : s.all isDigitCh = true) (ht : t.all isDigitCh = true)
    (hlt : lexLt s t = true) : parseVal 0 s < parseVal 0 t := by
  induction s generalizing t with
  | nil =>
    cases t with
    | nil => simp [lexLt] at hlt
    | cons t0 ts => simp at hlen
  | cons a s' ih =>
    cases t with
    | nil => simp at hlen
    | cons b t' =>
      simp only [List.length_cons, Nat.add_right_cancel_iff] at hlen
      simp only [List.all_cons, Bool.and_eq_true] at hs ht
      obtain ⟨ha, hs'⟩ := hs
      obtain ⟨hb, ht'⟩ := ht
      have hva : parseVal 0 (a :: s') = digitVal a * 10 ^ s'.length + parseVal 0 s' := by
        have : parseVal 0 (a :: s') = parseVal (digitVal a) s' := by simp [parseVal]
        rw [this, parseVal_shift]
      have hvb : parseVal 0 (b :: t') = digitVal b * 10 ^ t'.length + parseVal 0 t' := by
        have : parseVal 0 (b :: t') = parseVal (digitVal b) t' := by simp [parseVal]
        rw [this, parseVal_shift]
      simp only [lexLt] at hlt
      by_cases hab : a.toNat < b.toNat
      · have hdab : digitVal a < digitVal b := by
          simp only [isDigitCh, Bool.and_eq_true, decide_eq_true_eq] at ha hb
          simp only [digitVal]
          omega
        have hbnd : parseVal 0 s' < 10 ^ s'.length := parseVal_lt s' hs'
        rw [hva, hvb, hlen]
        have h1 : digitVal a * 10 ^ t'.length + 10 ^ t'.length
            ≤ digitVal b * 10 ^ t'.length := by
          have h' : (digitVal a + 1) * 10 ^ t'.length ≤ digitVal b * 10 ^ t'.length :=
            Nat.mul_le_mul_right _ hdab
          rw [Nat.add_mul, one_mul] at h'
          exact h'
        have h2 : parseVal 0 s' < 10 ^ t'.length := hlen ▸ hbnd
        omega
      · simp only [if_neg hab] at hlt
        by_cases hba : b.toNat < a.toNat
        · simp [hba] at hlt
        · simp only [if_neg hba] at hlt
          have habe : digitVal a = digitVal b := by
            simp only [digitVal]
            omega
          have := ih hlen hs' ht' hlt
          rw [hva, hvb, hlen, habe]
          omega

/-- If `t` does not exceed `s` lexicographically, same-length digit strings
compare the same way numerically. -/
theorem parseVal_le_of_not_lexLt {s t : List Char} (hlen : s.length = t.length)
    (hs : s.all isDigitCh = true) (ht : t.all isDigitCh = true)
    (h : lexLt t s = false) : parseVal 0 s ≤ parseVal 0 t := by
  rcases lexLt_trichot s t with h' | h' | h'
  · exact Nat.le_of_lt (parseVal_lt_of_lexLt hlen hs ht h')
  · rw [h'] at h; cases h
  · rw [h']

theorem digitChar_isDigit (d : Nat) : isDigitCh (digitChar d) = true := by
  unfold digitChar
  split <;> decide

theorem digitVal_digitChar {d : Nat} (h : d < 10) : digitVal (digitChar d) = d := by
  interval_cases d <;> decide

theorem natToCharsAux_eq (n : Nat) : ∀ (fuel : Nat) (acc : List Char), n < fuel →
    natToCharsAux fuel n acc = natToChars n ++ acc := by
  induction n using Nat.strong_induction_on with
  | _ n ih =>
    intro fuel acc hfuel
    cases fuel with
    | zero => omega
    | succ f =>
      by_cases h10 : n < 10
      · simp [natToCharsAux, natToChars, h10]
      · have hdiv : n / 10 < n := Nat.div_lt_self (by omega) (by omega)
        have hstep : natToCharsAux (f + 1) n acc
            = natToCharsAux f (n / 10) (digitChar (n % 10) :: acc) := by
          simp [natToCharsAux, h10]
        have hchars : natToChars n
            = natToCharsAux n (n / 10) [digitChar (n % 10)] := by
          simp [natToChars, natToCharsAux, h10]
        rw [hstep, hchars]
        have hf : n / 10 < f := by omega
        rw [ih (n / 10) hdiv f (digitChar (n % 10) :: acc) hf]
        rw [ih (n / 10) hdiv n [digitChar (n % 10)] (by omega)]
        simp

theorem natToChars_step {n : Nat} (h : 10 ≤ n) :
    natToChars n = natToChars (n / 10) ++ [digitChar (n % 10)] := by
  have h10 : ¬ n < 10 := by omega
  have : natToChars n = natToCharsAux n (n / 10) [digitChar (n % 10)] := by
    simp [natToChars, natToCharsAux, h10]
  rw [this, natToCharsAux_eq (n / 10) n [digitChar (n % 10)]
    (Nat.lt_of_lt_of_le (Nat.div_lt_self (by omega) (by omega)) (by omega))]

theorem natToChars_spec (n : Nat) :
    natToChars n ≠ [] ∧ (natToChars n).all isDigitCh = true
      ∧ parseVal 0 (natToChars n) = n := by
  induction n using Nat.strong_induction_on with
  | _ n ih =>
    by_cases h10 : n < 10
    · have : natToChars n = [digitChar n] := by simp [natToChars, natToCharsAux, h10]
      refine ⟨by simp [this], by simp [this, digitChar_isDigit], ?_⟩
      rw [this]
      have : parseVal 0 [digitChar n] = digitVal (digitChar n) := by simp [parseVal]
      rw [this, digitVal_digitChar h10]
    · have hstep := natToChars_step (Nat.le_of_not_lt h10)
      have hdiv : n / 10 < n := Nat.div_lt_self (by omega) (by omega)
      obtain ⟨hne, hdig, hval⟩ := ih (n / 10) hdiv
      refine ⟨by simp [hstep], ?_, ?_⟩
      · simp [hstep, List.all_append, hdig, digitChar_isDigit]
      · rw [hstep, parseVal_append, hval]
        have : parseVal (n / 10) [digitChar (n % 10)]
            = (n / 10) * 10 + digitVal (digitChar (n % 10)) := by simp [parseVal]
        rw [this, digitVal_digitChar (Nat.mod_lt n (by omega))]
        omega

theorem parseVal_replicate_zero (j : Nat) : parseVal 0 (List.replicate j '0') = 0 := by
  induction j with
  | zero => rfl
  | succ j ih =>
    have : parseVal 0 (List.replicate (j + 1) '0') = parseVal 0 (List.replicate j '0') := by
      simp [List.replicate_succ, parseVal, digitVal]
    rw [this, ih]

/-- Round trip: `int(str(k).rjust(w, "0"))` is `k`: rendering, left-padding with zeros
and re-parsing round-trips. -/
theorem parseNat_rjust (w k : Nat) : parseNat (rjust w '0' (natToChars k)) = some k := by
  obtain ⟨hne, hdig, hval⟩ := natToChars_spec k
  unfold rjust parseNat
  have hdig' : (List.replicate (w - (natToChars k).length) '0' ++ natToChars k).all isDigitCh
      = true := by
    rw [List.all_append]
    have h0 : (List.replicate (w - (natToChars k).length) '0').all isDigitCh = true := by
      rw [List.all_eq_true]
      intro x hx
      rw [List.eq_of_mem_replicate hx]
      decide
    rw [h0, hdig]
    rfl
  have hne' : (List.replicate (w - (natToChars k).length) '0' ++ natToChars k).isEmpty
      = false := by
    have hne2 : List.replicate (w - (natToChars k).length) '0' ++ natToChars k ≠ [] := by
      intro hcontra
      exact hne (List.append_eq_nil.mp hcontra).2
    cases hc : List.replicate (w - (natToChars k).length) '0' ++ natToChars k with
    | nil => exact absurd hc hne2
    | cons a t => rfl
  rw [hne', hdig']
  simp only [Bool.not_false, Bool.true_and, if_pos]
  rw [parseVal_append, parseVal_replicate_zero, hval]

/-! ## Resolver lemmas -/

theorem isEmpty_false_of_ne_nil {α : Type} {l : List α} (h : l ≠ []) : l.isEmpty = false := by
  cases l with
  | nil => exact absurd rfl h
  | cons a t => rfl

theorem head?_mem {α : Type} {l : List α} {a : α} (h : l.head? = some a) : a ∈ l := by
  cases l with
  | nil => cases h
  | cons x t =>
    obtain rfl : x = a := Option.some.inj h
    exact List.mem_cons_self _ _

theorem validateFreePorts_ok {db : Db} {ps : List FrontPort}
    {prs : List (FrontPort × FrontPort)} (h : validateFreePorts db ps = .ok prs) :
    validList db ps = .ok prs ∧ prs ≠ [] := by
  unfold validateFreePorts at h
  split at h
  · cases h
  · rename_i vs hvs heq
    obtain rfl := Except.ok.inj h
    exact ⟨heq, hvs⟩
  · cases h

theorem validateFreePorts_ne_nil {db : Db} {ps : List FrontPort}
    {prs : List (FrontPort × FrontPort)} (h : validateFreePorts db ps = .ok prs) :
    ps ≠ [] := by
  intro hnil
  subst hnil
  simp [validateFreePorts, validList] at h

theorem validList_mem {db : Db} : ∀ {ps : List FrontPort}
    {prs : List (FrontPort × FrontPort)}, validList db ps = .ok prs →
    ∀ pr ∈ prs, pr.1 ∈ ps := by
  intro ps
  induction ps with
  | nil =>
    intro prs h pr hpr
    simp only [validList] at h
    obtain rfl : prs = [] := (Except.ok.inj h).symm
    cases hpr
  | cons p rest ih =>
    intro prs h pr hpr
    simp only [validList] at h
    split at h
    · exact List.mem_cons_of_mem p (ih h pr hpr)
    · split at h
      · cases h
      · split at h
        · exact List.mem_cons_of_mem p (ih h pr hpr)
        · split at h
          · cases h
          · rename_i heq
            obtain rfl : prs = _ :: _ := (Except.ok.inj h).symm
            rcases List.mem_cons.mp hpr with rfl | hpr'
            · exact List.mem_cons_self p rest
            · exact List.mem_cons_of_mem p (ih heq pr hpr')

theorem freeModularPorts_rack {db : Db} {r : Nat} {fp : FrontPort}
    (h : fp ∈ freeModularPorts db r) : deviceRack db fp.device = r := by
  unfold freeModularPorts at h
  have hp := (List.mem_filter.mp h).2
  cases hfind : db.devices.find? (fun d => d.id == fp.device) with
  | none => simp [hfind] at hp
  | some dev =>
    simp only [hfind, Bool.and_eq_true, beq_iff_eq] at hp
    unfold deviceRack
    rw [hfind]
    exact hp.1.2

theorem directConnect_mem {db : Db} {rack2 : Nat} {pairs : List (FrontPort × FrontPort)}
    {dp : FrontPort × FrontPort} (h : directConnect db rack2 pairs = some dp) :
    dp ∈ pairs ∧ deviceRack db dp.2.device = rack2 := by
  unfold directConnect at h
  have hm := List.mem_filter.mp (head?_mem h)
  exact ⟨hm.1, by simpa using hm.2⟩

theorem directConnect_none {db : Db} {rack2 : Nat} {pairs : List (FrontPort × FrontPort)}
    (h : directConnect db rack2 pairs = none) {pr : FrontPort × FrontPort}
    (hpr : pr ∈ pairs) : deviceRack db pr.2.device ≠ rack2 := by
  unfold directConnect at h
  have hfil := List.head?_eq_none_iff.mp h
  have := List.filter_eq_nil_iff.mp hfil pr hpr
  simpa using this

theorem resolvedPairs_eq {db : Db} {r : Nat} {prs : List (FrontPort × FrontPort)}
    (h : validateFreePorts db (freeModularPorts db r) = .ok prs) :
    resolvedPairs db r = prs := by
  unfold resolvedPairs
  rw [(validateFreePorts_ok h).1]

theorem front_ne_of_rack_ne {db : Db} {a b : FrontPort} {r : Nat}
    (ha : deviceRack db a.device = r) (hb : deviceRack db b.device ≠ r) :
    Port.front a ≠ Port.front b := by
  intro he
  injection he with he'
  rw [he'] at ha
  exact hb ha

/-! ## Claim theorems -/

theorem lexLt_cons_same (a : Char) (s t : List Char) :
    lexLt (a :: s) (a :: t) = lexLt s t := by
  simp [lexLt]

theorem parseVal_of_parseNat {s : List Char} {x : Nat} (h : parseNat s = some x) :
    parseVal 0 s = x := by
  unfold parseNat at h
  split at h
  · exact Option.some.inj h
  · cases h

/-- C6: `next_cable_id` returns `C0001` when no trunk-tagged cable exists,
and otherwise returns `C` followed by one plus the numeric value of the
lexicographically maximal existing label suffix, left-padded with zeros to 4
digits; applied to suffixes `{C0001, C0003}` it returns `C0004` (max+1, not
gap-fill). -/
theorem next_cable_id_spec (labels : List (List Char)) (m : List Char) (n : Nat)
    (hmem : m ∈ labelSuffixes labels)
    (hmax : ∀ s ∈ labelSuffixes labels, lexLt m s = false)
    (hparse : parseNat (m.drop 1) = some n) :
    nextCableId labels = some ('C' :: rjust 4 '0' (natToChars (n + 1)))
    ∧ nextCableId [] = some "C0001".data
    ∧ nextCableId ["COM--A--B--C0001".data, "COM--A--B--C0003".data] = some "C0004".data := by
  refine ⟨?_, rfl, by decide⟩
  obtain ⟨M, hM⟩ : ∃ M, lexMax (labelSuffixes labels) = some M := by
    cases hL : labelSuffixes labels with
    | nil => rw [hL] at hmem; cases hmem
    | cons s rest => exact ⟨_, rfl⟩
  obtain ⟨hMmem, hMmax⟩ := lexMax_spec hM
  have hMm : M = m := lexLt_antisymm (hMmax m hmem) (hmax M hMmem)
  simp only [nextCableId, hM, hMm, hparse]

/-- Witness for C6. -/
theorem next_cable_id_spec_witness :
    nextCableId ["COM--A--B--C0001".data, "COM--A--B--C0003".data]
      = some ('C' :: rjust 4 '0' (natToChars (3 + 1)))
    ∧ nextCableId [] = some "C0001".data
    ∧ nextCableId ["COM--A--B--C0001".data, "COM--A--B--C0003".data] = some "C0004".data :=
  next_cable_id_spec ["COM--A--B--C0001".data, "COM--A--B--C0003".data] "C0003".data 3
    (by decide) (by decide) (by decide)

/-- C10: `next_cable_id` maximizes lexicographically, not numerically: as
long as every existing `--`-suffix is `C` followed by exactly four digits the
returned label's number strictly exceeds every existing one, but on the
suffix set `{C9999, C10000}` the lexicographic maximum is `C9999` and the
function returns `C10000`, which collides with the existing label. -/
theorem next_cable_id_lex_collision (labels : List (List Char)) (r : List Char)
    (hall : ∀ s ∈ labelSuffixes labels, isC4Label s = true)
    (hr : nextCableId labels = some r) :
    (∀ s ∈ labelSuffixes labels, suffixNum s < suffixNum r)
    ∧ nextCableId ["C9999".data, "C10000".data] = some "C10000".data
    ∧ "C10000".data ∈ labelSuffixes ["C9999".data, "C10000".data]
    ∧ lexMax (labelSuffixes ["C9999".data, "C10000".data]) = some "C9999".data := by
  refine ⟨?_, by decide, by decide, by decide⟩
  intro s hs
  obtain ⟨M, hM⟩ : ∃ M, lexMax (labelSuffixes labels) = some M := by
    cases hL : labelSuffixes labels with
    | nil => rw [hL] at hs; cases hs
    | cons x rest => exact ⟨_, rfl⟩
  obtain ⟨hMmem, hMmax⟩ := lexMax_spec hM
  obtain ⟨cM, dm, rfl⟩ : ∃ c dm, M = c :: dm := by
    cases M with
    | nil => have := hall [] hMmem; cases this
    | cons c dm => exact ⟨c, dm, rfl⟩
  have hMC := hall (cM :: dm) hMmem
  simp only [isC4Label, List.length_cons, List.headD_cons, List.drop_succ_cons,
    List.drop_zero, Bool.and_eq_true, beq_iff_eq] at hMC
  obtain ⟨⟨hlen5, hcC⟩, hdm⟩ := hMC
  subst hcC
  have hdmne : dm.isEmpty = false := by
    cases dm with
    | nil => simp at hlen5
    | cons a t => rfl
  have hparse : parseNat dm = some (parseVal 0 dm) := by
    unfold parseNat
    rw [hdmne, hdm]
    rfl
  have hreq : r = 'C' :: rjust 4 '0' (natToChars (parseVal 0 dm + 1)) := by
    simp only [nextCableId, hM, List.drop_succ_cons, List.drop_zero, hparse,
      Option.some.injEq] at hr
    exact hr.symm
  have hsv : suffixNum r = parseVal 0 dm + 1 := by
    rw [hreq]
    simp only [suffixNum, List.drop_succ_cons, List.drop_zero]
    exact parseVal_of_parseNat (parseNat_rjust 4 (parseVal 0 dm + 1))
  obtain ⟨cs, ds, rfl⟩ : ∃ c ds, s = c :: ds := by
    cases s with
    | nil => have := hall [] hs; cases this
    | cons c ds => exact ⟨c, ds, rfl⟩
  have hsC := hall (cs :: ds) hs
  simp only [isC4Label, List.length_cons, List.headD_cons, List.drop_succ_cons,
    List.drop_zero, Bool.and_eq_true, beq_iff_eq] at hsC
  obtain ⟨⟨hslen5, hscC⟩, hds⟩ := hsC
  subst hscC
  have hle : parseVal 0 ds ≤ parseVal 0 dm := by
    refine parseVal_le_of_not_lexLt (by omega) hds hdm ?_
    have := hMmax ('C' :: ds) hs
    rwa [lexLt_cons_same] at this
  have hgoal : suffixNum ('C' :: ds) = parseVal 0 ds := by
    simp [suffixNum]
  rw [hgoal, hsv]
  omega

/-- Witness for C10. -/
theorem next_cable_id_lex_collision_witness :
    (∀ s ∈ labelSuffixes ["COM--A--B--C0007".data], suffixNum s < suffixNum "C0008".data)
    ∧ nextCableId ["C9999".data, "C10000".data] = some "C10000".data
    ∧ "C10000".data ∈ labelSuffixes ["C9999".data, "C10000".data]
    ∧ lexMax (labelSuffixes ["C9999".data, "C10000".data]) = some "C9999".data :=
  next_cable_id_lex_collision ["COM--A--B--C0007".data] "C0008".data
    (by decide) (by decide)

/-- C2: whenever the origin rack's valid-pair list contains a pair whose
remote front port sits in the destination rack, `get_connections` returns
the length-2 plan `[(originPort, p), (destPort, p')]` built from the FIRST
such pair in the enumeration order of the valid-pair list. -/
theorem direct_topology_plan {db : Db} {o d : Port}
    {pairs : List (FrontPort × FrontPort)} {dp : FrontPort × FrontPort}
    (hv : validateFreePorts db (freeModularPorts db (portRack db o)) = .ok pairs)
    (hdp : (pairs.filter (fun pr => deviceRack db pr.2.device == portRack db d)).head?
      = some dp) :
    getConnections db o d = .ok [(o, .front dp.1), (d, .front dp.2)]
    ∧ ([(o, Port.front dp.1), (d, Port.front dp.2)] : List (Port × Port)).length = 2 := by
  have hne := isEmpty_false_of_ne_nil (validateFreePorts_ne_nil hv)
  refine ⟨?_, rfl⟩
  simp [getConnections, hne, hv, directConnect, hdp]

/-- Witness for C2: the direct plant resolves through its only valid pair. -/
theorem direct_topology_plan_witness :
    getConnections dbDirect oEnd dEnd = .ok [(oEnd, .front fpA), (dEnd, .front fpB)]
    ∧ ([(oEnd, Port.front fpA), (dEnd, Port.front fpB)] : List (Port × Port)).length = 2 :=
  @direct_topology_plan dbDirect oEnd dEnd [(fpA, fpB)] (fpA, fpB) (by decide) (by decide)

/-- C3: with valid pairs on both sides but no direct pair, `get_connections`
returns the length-3 plan `[(originPort, p1), (p1', p2'), (destPort, p2)]`
where `(p1, p1')` is the first entry of the origin rack's valid-pair list and
`(p2, p2')` the first entry of the destination rack's list, computed by the
same validation procedure. -/
theorem hub_topology_plan {db : Db} {o d : Port} {p1 p2 : FrontPort × FrontPort}
    {t1 t2 : List (FrontPort × FrontPort)}
    (hv1 : validateFreePorts db (freeModularPorts db (portRack db o)) = .ok (p1 :: t1))
    (hnd : directConnect db (portRack db d) (p1 :: t1) = none)
    (hv2 : validateFreePorts db (freeModularPorts db (portRack db d)) = .ok (p2 :: t2)) :
    getConnections db o d
      = .ok [(o, .front p1.1), (.front p1.2, .front p2.2), (d, .front p2.1)]
    ∧ ([(o, Port.front p1.1), (Port.front p1.2, Port.front p2.2), (d, Port.front p2.1)]
        : List (Port × Port)).length = 3 := by
  have hne := isEmpty_false_of_ne_nil (validateFreePorts_ne_nil hv1)
  refine ⟨?_, rfl⟩
  simp [getConnections, hne, hv1, hnd, hv2]

/-- Witness for C3: the hub plant resolves through the hub rack. -/
theorem hub_topology_plan_witness :
    getConnections dbHub oEnd dEnd
      = .ok [(oEnd, .front fpH1), (.front fpH1r, .front fpH2r), (dEnd, .front fpH2)]
    ∧ ([(oEnd, Port.front fpH1), (Port.front fpH1r, Port.front fpH2r),
        (dEnd, Port.front fpH2)] : List (Port × Port)).length = 3 :=
  @hub_topology_plan dbHub oEnd dEnd (fpH1, fpH1r) (fpH2, fpH2r) [] []
    (by decide) (by decide) (by decide)

/-- C1 counterexample, in five parts.  (a) On the direct plant the plan is
`[(origin, p), (dest, p')]`: the last pair's LAST element is the
destination-side panel port, not the caller-supplied destination endpoint
(which is the last pair's FIRST element).  The remaining parts refute the
unconditional "consecutive pairs share no ports" invariant, one part for
each well-formedness condition the amended claim adds: (b) with both
endpoints (here the same endpoint) in one rack, the two pairs share the
endpoint; (c) with rack 1's trunk looping inside rack 1, pairs 1 and 2 share
rack 1's front port; (d) with rack 2's trunk landing back in rack 1, pairs 1
and 2 share rack 1's front port; (e) with rack 2's trunk looping inside
rack 2, pairs 2 and 3 share rack 2's front port. -/
theorem connection_plan_counterexample :
    (getConnections dbDirect oEnd dEnd = .ok [(oEnd, .front fpA), (dEnd, .front fpB)]
      ∧ (([(oEnd, Port.front fpA), (dEnd, Port.front fpB)] : List (Port × Port)).getLast?).map
          Prod.snd = some (Port.front fpB)
      ∧ Port.front fpB ≠ dEnd)
    ∧ (getConnections dbSameRack oEnd oEnd = .ok [(oEnd, .front fpA), (oEnd, .front fpB)]
      ∧ ¬ ([(oEnd, Port.front fpA), (oEnd, Port.front fpB)]
            : List (Port × Port)).Chain' pairsDisjoint)
    ∧ (getConnections dbLoop1 oEnd dEnd
        = .ok [(oEnd, .front fpA), (.front fpA, .front fpH2r), (dEnd, .front fpB)]
      ∧ ¬ ([(oEnd, Port.front fpA), (Port.front fpA, Port.front fpH2r), (dEnd, Port.front fpB)]
            : List (Port × Port)).Chain' pairsDisjoint)
    ∧ (getConnections dbBack oEnd dEnd
        = .ok [(oEnd, .front fpA), (.front fpH1r, .front fpA), (dEnd, .front fpB)]
      ∧ ¬ ([(oEnd, Port.front fpA), (Port.front fpH1r, Port.front fpA), (dEnd, Port.front fpB)]
            : List (Port × Port)).Chain' pairsDisjoint)
    ∧ (getConnections dbLoop2 oEnd dEnd
        = .ok [(oEnd, .front fpA), (.front fpH1r, .front fpB), (dEnd, .front fpB)]
      ∧ ¬ ([(oEnd, Port.front fpA), (Port.front fpH1r, Port.front fpB), (dEnd, Port.front fpB)]
            : List (Port × Port)).Chain' pairsDisjoint) :=
  ⟨⟨by decide, rfl, by decide⟩,
   ⟨by decide, fun hc => (List.chain'_cons.mp hc).1.1 rfl⟩,
   ⟨by decide, fun hc => (List.chain'_cons.mp hc).1.2.2.1 rfl⟩,
   ⟨by decide, fun hc => (List.chain'_cons.mp hc).1.2.2.2 rfl⟩,
   ⟨by decide, fun hc => (List.chain'_cons.mp (List.chain'_cons.mp hc).2).1.2.2.2 rfl⟩⟩

/-- C1 (amended): every successful plan has length 2 (direct) or 3
(hub-mediated), its first pair's first element is the caller-supplied origin
endpoint, and its last pair's FIRST element is the caller-supplied
destination endpoint (the destination-side panel port is the last pair's
second element, where the claim put the destination — see counterexample
part a); no two consecutive pairs share a port whenever the two endpoint
racks differ (counterexample part b shows sharing otherwise), the trunk
counterparts of the origin rack's valid pairs lie outside the origin rack
(part c), and those of the destination rack's valid pairs lie outside both
endpoint racks (parts d and e). -/
theorem connection_plan_invariant {db : Db} {o d : Port} {plan : List (Port × Port)}
    (h : getConnections db o d = .ok plan) :
    (plan.length = 2 ∨ plan.length = 3)
    ∧ plan.head?.map Prod.fst = some o
    ∧ plan.getLast?.map Prod.fst = some d
    ∧ (portRack db o ≠ portRack db d →
        (∀ pr ∈ resolvedPairs db (portRack db o),
          deviceRack db pr.2.device ≠ portRack db o) →
        (∀ pr ∈ resolvedPairs db (portRack db d),
          deviceRack db pr.2.device ≠ portRack db o
            ∧ deviceRack db pr.2.device ≠ portRack db d) →
        plan.Chain' pairsDisjoint) := by
  simp only [getConnections] at h
  split at h
  · cases h
  · split at h
    · cases h
    · rename_i pairs1 hv1
      split at h
      · -- direct branch
        rename_i dp hdp
        obtain rfl : plan = [(o, .front dp.1), (d, .front dp.2)] := (Except.ok.inj h).symm
        obtain ⟨hdpmem, hdprack⟩ := directConnect_mem hdp
        have hr1 : deviceRack db dp.1.device = portRack db o :=
          freeModularPorts_rack (validList_mem (validateFreePorts_ok hv1).1 dp hdpmem)
        refine ⟨Or.inl rfl, rfl, rfl, ?_⟩
        intro hrack _ _
        rw [List.chain'_cons]
        refine ⟨⟨fun he => hrack (congrArg (portRack db) he),
            fun he => hrack ((congrArg (portRack db) he).trans hdprack),
            fun he => hrack (hr1.symm.trans (congrArg (portRack db) he)),
            front_ne_of_rack_ne hr1 (fun hc => hrack (hc.symm.trans hdprack))⟩,
          List.chain'_singleton _⟩
      · -- hub branch
        rename_i hdp
        split at h
        · cases h
        · rename_i pairs2 hv2
          split at h
          · rename_i p1 t1 p2 t2
            obtain rfl :
                plan = [(o, .front p1.1), (.front p1.2, .front p2.2), (d, .front p2.1)] :=
              (Except.ok.inj h).symm
            have hvl1 := (validateFreePorts_ok hv1).1
            have hvl2 := (validateFreePorts_ok hv2).1
            have hp1r1 : deviceRack db p1.1.device = portRack db o :=
              freeModularPorts_rack (validList_mem hvl1 p1 (List.mem_cons_self _ _))
            have hp2r2 : deviceRack db p2.1.device = portRack db d :=
              freeModularPorts_rack (validList_mem hvl2 p2 (List.mem_cons_self _ _))
            have hp1nd : deviceRack db p1.2.device ≠ portRack db d :=
              directConnect_none hdp (List.mem_cons_self _ _)
            refine ⟨Or.inr rfl, rfl, rfl, ?_⟩
            intro _ hsep1 hsep2
            rw [resolvedPairs_eq hv1] at hsep1
            rw [resolvedPairs_eq hv2] at hsep2
            have hp1sep : deviceRack db p1.2.device ≠ portRack db o :=
              hsep1 p1 (List.mem_cons_self _ _)
            have hp2sep := hsep2 p2 (List.mem_cons_self _ _)
            rw [List.chain'_cons, List.chain'_cons]
            refine ⟨⟨fun he => hp1sep ((congrArg (portRack db) he).symm),
                fun he => hp2sep.1 ((congrArg (portRack db) he).symm),
                front_ne_of_rack_ne hp1r1 hp1sep,
                front_ne_of_rack_ne hp1r1 hp2sep.1⟩,
              ⟨fun he => hp1nd (congrArg (portRack db) he),
                (front_ne_of_rack_ne hp2r2 hp1nd).symm,
                fun he => hp2sep.2 (congrArg (portRack db) he),
                (front_ne_of_rack_ne hp2r2 hp2sep.2).symm⟩,
              List.chain'_singleton _⟩
          · cases h

/-- Witness for C1 (amended), on the hub plant: the unconditional length and
endpoint facts, and the disjointness of consecutive pairs with the three
side conditions discharged concretely. -/
theorem connection_plan_invariant_witness :
    ((([(oEnd, Port.front fpH1), (Port.front fpH1r, Port.front fpH2r), (dEnd, Port.front fpH2)]
        : List (Port × Port)).length = 2
      ∨ ([(oEnd, Port.front fpH1), (Port.front fpH1r, Port.front fpH2r),
          (dEnd, Port.front fpH2)] : List (Port × Port)).length = 3)
    ∧ ([(oEnd, Port.front fpH1), (Port.front fpH1r, Port.front fpH2r), (dEnd, Port.front fpH2)]
        : List (Port × Port)).head?.map Prod.fst = some oEnd
    ∧ ([(oEnd, Port.front fpH1), (Port.front fpH1r, Port.front fpH2r), (dEnd, Port.front fpH2)]
        : List (Port × Port)).getLast?.map Prod.fst = some dEnd)
    ∧ ([(oEnd, Port.front fpH1), (Port.front fpH1r, Port.front fpH2r), (dEnd, Port.front fpH2)]
        : List (Port × Port)).Chain' pairsDisjoint :=
  have hinv := @connection_plan_invariant dbHub oEnd dEnd
    [(oEnd, Port.front fpH1), (Port.front fpH1r, Port.front fpH2r), (dEnd, Port.front fpH2)]
    (by decide)
  ⟨⟨hinv.1, hinv.2.1, hinv.2.2.1⟩,
    hinv.2.2.2 (by decide) (by decide) (by decide)⟩

/-- C4 (code bug): the claim demands `NoFreePortsError` whenever either
rack's free-port set is empty, and this is clearly the intent — the docstring
says "for each rack" and the `jumpers.py` duplicate tests both lists — but
`utils.py` line 117 tests `rack_1_free_modular_ports` twice.  On a state
whose destination rack has no free panel port the `utils.py` runner proceeds,
validates the origin rack's ports, and aborts with `noValidPorts` instead;
zero cables are created either way.  The `jumpers.py` duplicate of the check
aborts with `noFreePorts` as the claim demands. -/
theorem free_port_check_divergence :
    (freeModularPorts dbNoFree (portRack dbNoFree dEnd)).isEmpty = true
    ∧ (freeModularPorts dbNoFree (portRack dbNoFree oEnd)).isEmpty = false
    ∧ runCableRunner dbNoFree oEnd dEnd "CLR-1" "connected" "smf" = .error .noValidPorts
    ∧ getConnections dbNoFree oEnd dEnd ≠ .error .noFreePorts
    ∧ findFreeLocalPortsJumpers dbNoFree (portRack dbNoFree oEnd) (portRack dbNoFree dEnd)
        = .error .noFreePorts := by
  refine ⟨rfl, rfl, rfl, ?_, rfl⟩
  decide

/-- C5: in `_validate_free_ports`, a free front port whose rear port has no
linked counterpart is skipped (no error is raised for it), a port whose
remote front port at the same rear-port position is cabled is skipped, every
other port is accumulated as a `(local, remote)` pair, and an empty valid
list aborts with `noValidPorts`. -/
theorem validate_free_ports_spec :
    (∀ (db : Db) (p : FrontPort) (rest : List FrontPort),
        remotePanel db p = none →
        validList db (p :: rest) = validList db rest)
    ∧ (∀ (db : Db) (p : FrontPort) (rest : List FrontPort) (panel : Nat) (rp : FrontPort),
        remotePanel db p = some panel →
        frontPortGet db panel p.rearPortPosition = some rp →
        rp.cabled = true →
        validList db (p :: rest) = validList db rest)
    ∧ (∀ (db : Db) (p : FrontPort) (rest : List FrontPort) (panel : Nat) (rp : FrontPort)
          (acc : List (FrontPort × FrontPort)),
        remotePanel db p = some panel →
        frontPortGet db panel p.rearPortPosition = some rp →
        rp.cabled = false →
        validList db rest = .ok acc →
        validList db (p :: rest) = .ok ((p, rp) :: acc))
    ∧ (∀ (db : Db) (ports : List FrontPort),
        validList db ports = .ok [] →
        validateFreePorts db ports = .error .noValidPorts) := by
  refine ⟨?_, ?_, ?_, ?_⟩
  · intro db p rest h
    simp [validList, h]
  · intro db p rest panel rp h1 h2 h3
    simp [validList, h1, h2, h3]
  · intro db p rest panel rp acc h1 h2 h3 h4
    simp [validList, h1, h2, h3, h4]
  · intro db ports h
    simp [validateFreePorts, h]

/-- Witness for C5: each case of `validate_free_ports_spec` exercised on a
concrete state. -/
theorem validate_free_ports_spec_witness :
    validList dbNoFree [⟨10, 1, 100, 1, ['l', 'c'], false⟩] = validList dbNoFree []
    ∧ validList dbBusy [fpA] = validList dbBusy []
    ∧ validList dbDirect [fpA] = .ok [(fpA, fpB)]
    ∧ validateFreePorts dbBusy [fpA] = .error .noValidPorts :=
  ⟨validate_free_ports_spec.1 dbNoFree ⟨10, 1, 100, 1, ['l', 'c'], false⟩ [] rfl,
   validate_free_ports_spec.2.1 dbBusy fpA [] 2 fpBbusy rfl rfl rfl,
   validate_free_ports_spec.2.2.1 dbDirect fpA [] 2 fpB [] rfl rfl rfl rfl,
   validate_free_ports_spec.2.2.2 dbBusy [fpA] rfl⟩

/-- C7: the path resolver is a pure function of the repository state and the
two endpoints — it performs no writes, so two calls against an unchanged
state produce identical plans. -/
theorem get_connections_deterministic (db db' : Db) (o d : Port) (h : db = db') :
    getConnections db o d = getConnections db' o d := by
  rw [h]

/-- Witness for C7. -/
theorem get_connections_deterministic_witness :
    getConnections dbDirect oEnd dEnd = getConnections dbDirect oEnd dEnd :=
  get_connections_deterministic dbDirect dbDirect oEnd dEnd rfl

/-- C8: `check_pairs` aborts with the "Select **one**" message as soon as
more than one of Interface/FrontPort/RearPort is selected, but with none of
the three selected it evaluates `ports_input[0]` on an empty list and dies
with an unhandled `IndexError` instead of a clean abort. -/
theorem check_pairs_selection :
    (∀ port1 port2 port3 : Option Nat,
        1 < ([port1, port2, port3].filterMap id).length →
        checkPairs port1 port2 port3 = .error .abortSelectOne)
    ∧ checkPairs none none none = .error .indexErr
    ∧ (Except.error FormErr.indexErr : Except FormErr Nat) ≠ .error .abortSelectOne := by
  refine ⟨?_, rfl, by decide⟩
  intro port1 port2 port3 h
  unfold checkPairs
  rw [if_pos h]

/-- Witness for C8. -/
theorem check_pairs_selection_witness :
    checkPairs (some 1) (some 2) none = .error .abortSelectOne :=
  check_pairs_selection.1 (some 1) (some 2) none (by decide)

/-- C9: every cable created from one connection plan carries the same label,
status, cable type, length `0` and length unit `"m"`; the terminations are
exactly the plan's pairs, in plan order. -/
theorem create_cables_uniform (conns : List (Port × Port)) (clr status ct : String) :
    (∀ c ∈ createCables conns clr status ct,
        c.label = clr ∧ c.status = status ∧ c.cableType = ct
          ∧ c.length = 0 ∧ c.lengthUnit = "m")
    ∧ (createCables conns clr status ct).map (fun c => (c.aTermination, c.bTermination))
        = conns := by
  constructor
  · intro c hc
    simp only [createCables, List.mem_map] at hc
    obtain ⟨pr, _, rfl⟩ := hc
    exact ⟨rfl, rfl, rfl, rfl, rfl⟩
  · simp only [createCables, createCableSingle, List.map_map, Function.comp]
    exact List.map_id conns

/-- Witness for C9. -/
theorem create_cables_uniform_witness :
    (createCableSingle oEnd (Port.front fpA) "CLR-1" "connected" "smf-os2" 0).label = "CLR-1"
    ∧ (createCableSingle oEnd (Port.front fpA) "CLR-1" "connected" "smf-os2" 0).status
        = "connected"
    ∧ (createCableSingle oEnd (Port.front fpA) "CLR-1" "connected" "smf-os2" 0).cableType
        = "smf-os2"
    ∧ (createCableSingle oEnd (Port.front fpA) "CLR-1" "connected" "smf-os2" 0).length = 0
    ∧ (createCableSingle oEnd (Port.front fpA) "CLR-1" "connected" "smf-os2" 0).lengthUnit
        = "m" :=
  (create_cables_uniform [(oEnd, Port.front fpA)] "CLR-1" "connected" "smf-os2").1
    (createCableSingle oEnd (Port.front fpA) "CLR-1" "connected" "smf-os2" 0) (by decide)

end NetboxJumpers
